import Mathlib

/-
Verification of the `bench_matrix` crate: a parameter-matrix generator and
benchmark-suite orchestrator.

Shallow embedding of:
  - src/src/params.rs    : `MatrixCellValue`, `AbstractCombination`, the typed
                           accessors, `id_suffix`, and the `From` conversions;
  - src/src/generator.rs : `generate_combinations` and its `CombinationIterator`
                           (the itertools `multi_cartesian_product` the iterator
                           wraps is embedded as the standard list Cartesian
                           product, with the empty-input behaviour pinned by the
                           crate's own tests);
  - src/src/criterion_runner/sync_suite.rs and async_suite.rs : the
                           per-combination orchestration loop and the
                           per-sample setup/logic/teardown cycle run inside the
                           harness's `iter_custom` callback.  The sync and
                           async variants have identical control flow (the
                           async version merely awaits each call), so one
                           embedding covers both.

Rust machine integers: the i64/u64 payloads are only constructed, compared and
formatted by this crate (no arithmetic), so they are embedded as Int/Nat.
Durations are summed; they are embedded as Nat (nanosecond counts, which is
what `std::time::Duration` addition amounts to; no overflow is reachable in
the embedding because Nat is unbounded and Duration addition panics rather
than wraps in Rust).
-/

namespace BenchMatrix

/-- Cell values, embedding `enum MatrixCellValue` (params.rs lines 7-20).
Payloads: Tag/String carry text, Int carries an i64 (embedded as Int),
Unsigned a u64 (embedded as Nat), Bool a bool. -/
inductive MatrixCellValue where
  | Tag (s : String)
  | String (s : String)
  | Int (i : Int)
  | Unsigned (u : Nat)
  | Bool (b : Bool)
deriving DecidableEq

/-- Debug rendering of a cell, embedding `impl fmt::Debug for MatrixCellValue`
(params.rs lines 37-47): `Tag({})`, `String("{}")`, `Int({})`, `Unsigned({})`,
`Bool({})`.  This is the `{:?}` form used inside accessor error messages. -/
def cellDebug : MatrixCellValue → String
  | .Tag s => "Tag(" ++ s ++ ")"
  | .String s => "String(\"" ++ s ++ "\")"
  | .Int i => "Int(" ++ toString i ++ ")"
  | .Unsigned u => "Unsigned(" ++ toString u ++ ")"
  | .Bool b => "Bool(" ++ toString b ++ ")"

/-- Embedding of `s.replace(|c: char| !c.is_alphanumeric(), "_")`
(params.rs line 114): every non-alphanumeric character becomes `_`.
Rust's `char::is_alphanumeric` is Unicode-aware; the embedding uses the ASCII
alphanumeric test, which agrees with it on all ASCII text (all text exercised
by the crate and its tests). -/
def sanitizeString (s : String) : String :=
  ⟨s.data.map (fun c => if c.isAlphanum then c else '_')⟩

/-- The per-cell identifier fragment used by `id_suffix`
(params.rs lines 110-119): Tag renders as its raw text, String sanitized,
Int as `Int<value>`, Unsigned as `Uint<value>`, Bool as `Bool<value>`. -/
def cellIdFragment : MatrixCellValue → String
  | .Tag s => s
  | .String s => sanitizeString s
  | .Int i => "Int" ++ toString i
  | .Unsigned u => "Uint" ++ toString u
  | .Bool b => "Bool" ++ toString b

/-- One combination (row), embedding `struct AbstractCombination`
(params.rs lines 96-100). -/
structure AbstractCombination where
  cells : List MatrixCellValue
deriving DecidableEq

/-- Embedding of Rust's `[String]::join(sep)`: elements interleaved with the
separator, empty list giving the empty string. -/
def joinSep (sep : String) : List String → String
  | [] => ""
  | [x] => x
  | x :: y :: t => x ++ sep ++ joinSep sep (y :: t)

/-- Embedding of `AbstractCombination::id_suffix` (params.rs lines 106-122):
map every cell to its fragment, join with `_`, and prepend `_`
(`format!("_{}", parts.join("_"))`). -/
def AbstractCombination.id_suffix (c : AbstractCombination) : String :=
  "_" ++ joinSep "_" (c.cells.map cellIdFragment)

/-- Embedding of `AbstractCombination::get_tag` (params.rs lines 128-134). -/
def AbstractCombination.get_tag (c : AbstractCombination) (index : Nat) :
    Except String String :=
  match c.cells[index]? with
  | some (.Tag s) => Except.ok s
  | some other =>
      Except.error ("Expected Tag at index " ++ toString index ++ ", found " ++ cellDebug other)
  | none => Except.error ("No cell at index " ++ toString index)

/-- Embedding of `AbstractCombination::get_string` (params.rs lines 136-142). -/
def AbstractCombination.get_string (c : AbstractCombination) (index : Nat) :
    Except String String :=
  match c.cells[index]? with
  | some (.String s) => Except.ok s
  | some other =>
      Except.error ("Expected String at index " ++ toString index ++ ", found " ++ cellDebug other)
  | none => Except.error ("No cell at index " ++ toString index)

/-- Embedding of `AbstractCombination::get_i64` (params.rs lines 144-150). -/
def AbstractCombination.get_i64 (c : AbstractCombination) (index : Nat) :
    Except String Int :=
  match c.cells[index]? with
  | some (.Int i) => Except.ok i
  | some other =>
      Except.error ("Expected Int at index " ++ toString index ++ ", found " ++ cellDebug other)
  | none => Except.error ("No cell at index " ++ toString index)

/-- Embedding of `AbstractCombination::get_u64` (params.rs lines 152-158). -/
def AbstractCombination.get_u64 (c : AbstractCombination) (index : Nat) :
    Except String Nat :=
  match c.cells[index]? with
  | some (.Unsigned u) => Except.ok u
  | some other =>
      Except.error ("Expected Unsigned at index " ++ toString index ++ ", found " ++ cellDebug other)
  | none => Except.error ("No cell at index " ++ toString index)

/-- Embedding of `AbstractCombination::get_bool` (params.rs lines 160-166). -/
def AbstractCombination.get_bool (c : AbstractCombination) (index : Nat) :
    Except String Bool :=
  match c.cells[index]? with
  | some (.Bool b) => Except.ok b
  | some other =>
      Except.error ("Expected Bool at index " ++ toString index ++ ", found " ++ cellDebug other)
  | none => Except.error ("No cell at index " ++ toString index)

/-- Embedding of `impl From<&'static str> for MatrixCellValue`
(params.rs lines 52-56): a static string slice converts to the `Tag` variant. -/
def cellFromStaticStr (s : String) : MatrixCellValue := .Tag s

/-- Embedding of `impl From<String> for MatrixCellValue`
(params.rs lines 58-62): an owned `String` converts to the `String` variant. -/
def cellFromString (s : String) : MatrixCellValue := .String s

/-- Modelled from the spec: the per-cell fragment used by the *named*
identifier suffix.  `AbstractCombination::id_suffix_with_names` is code of this
repository that is not under src/ (only its callers in the suite runners and
its test `test_abstract_combination_id_suffix_with_names` in generator.rs are
present).  The spec's named-suffix example and that in-src test both render
`Unsigned(512)` under the name `BlockSize` as `_BlockSize-512`, i.e. without
the `Uint` type prefix, so the named fragment renders numeric and boolean
payloads as their plain value text, Tag as raw text and String sanitized. -/
def namedCellFragment : MatrixCellValue → String
  | .Tag s => s
  | .String s => sanitizeString s
  | .Int i => toString i
  | .Unsigned u => toString u
  | .Bool b => toString b

/-- Concatenation of a list of strings (left to right). -/
def concatAll : List String → String
  | [] => ""
  | x :: xs => x ++ concatAll xs

/-- Modelled from the spec: `AbstractCombination::id_suffix_with_names`, which
is absent from src/.  Per the spec (section 4.1) and the in-src test
(generator.rs lines 254-270): with a name list equal in length to the
combination it produces `_<Name>-<fragment>` per position; with a mismatched
length it falls back to the unnamed `id_suffix` and emits a non-fatal warning.
The Bool component records whether the warning was emitted. -/
def AbstractCombination.id_suffix_with_names (c : AbstractCombination)
    (names : List String) : String × Bool :=
  if names.length = c.cells.length then
    (concatAll (List.zipWith (fun n cell => "_" ++ n ++ "-" ++ namedCellFragment cell)
      names c.cells), false)
  else
    (c.id_suffix, true)

/-- The list Cartesian product in the order produced by itertools'
`MultiProduct`: one value chosen from each axis, the last (rightmost) axis
varying fastest. -/
def cartesianProduct {α : Type} : List (List α) → List (List α)
  | [] => [[]]
  | axis :: rest => axis.flatMap (fun v => (cartesianProduct rest).map (fun tail => v :: tail))

/-- Embedding of `itertools::Itertools::multi_cartesian_product`
(the inner iterator built in generator.rs lines 118-121).  For an empty
collection of sub-iterators itertools' `MultiProduct` yields no items at all
(not one empty row); this behaviour is pinned by the crate's own test
`test_len_calculation_and_iteration_empty_axes`, which asserts that the
iterator over an empty axes slice yields a count of 0. -/
def multiCartesianProduct {α : Type} (axes : List (List α)) : List (List α) :=
  match axes with
  | [] => []
  | _ :: _ => cartesianProduct axes

/-- Embedding of `CombinationIterator` (generator.rs lines 42-53): the lazily
yielded sequence of combinations together with the `len` field precomputed at
construction time (available before any iteration). -/
structure CombinationIterator where
  items : List AbstractCombination
  len : Nat
deriving DecidableEq

/-- Embedding of `generate_combinations` (generator.rs lines 109-124).
The `len` field is computed exactly as in the source:
`if axes.iter().any(Vec::is_empty) { 0 } else { axes.iter().map(Vec::len).product() }`
(note that Rust's `product()` over an empty iterator is 1, as is Lean's
`List.prod []`).  The yielded items are the multi-Cartesian product, each
wrapped into an `AbstractCombination`. -/
def generate_combinations (axes : List (List MatrixCellValue)) : CombinationIterator :=
  { items := (multiCartesianProduct axes).map (fun cs => ⟨cs⟩),
    len := if axes.any List.isEmpty then 0 else (axes.map List.length).prod }

/-- The mixed-radix selection: the i-th combination of the product picks from
each axis the corresponding digit of i written in the mixed-radix system whose
place values are the products of the lengths of the axes to the right.  The
last axis is the least-significant digit, i.e. it varies fastest, and
incrementing i carries leftward exactly when a digit wraps. -/
def mixedRadixSelect {α : Type} (d : α) : List (List α) → Nat → List α
  | [], _ => []
  | axis :: rest, i =>
      axis.getD (i / (rest.map List.length).prod) d ::
        mixedRadixSelect d rest (i % (rest.map List.length).prod)

theorem sum_map_const {α : Type} (l : List α) (k : Nat) :
    (l.map (fun _ => k)).sum = l.length * k := by
  induction l with
  | nil => simp
  | cons x xs ih => simp [ih, Nat.succ_mul, Nat.add_comm]

theorem cartesianProduct_length {α : Type} (axes : List (List α)) :
    (cartesianProduct axes).length = (axes.map List.length).prod := by
  induction axes with
  | nil => simp [cartesianProduct]
  | cons axis rest ih =>
      simp [cartesianProduct, List.length_flatMap, Function.comp_def, ih, sum_map_const]

theorem cartesianProduct_mem_length {α : Type} (axes : List (List α)) (c : List α)
    (hc : c ∈ cartesianProduct axes) : c.length = axes.length := by
  induction axes generalizing c with
  | nil => simp [cartesianProduct] at hc; simp [hc]
  | cons axis rest ih =>
      simp [cartesianProduct, List.mem_flatMap] at hc
      obtain ⟨v, hv, tail, htail, rfl⟩ := hc
      simp [ih tail htail]

theorem flatMap_block_get {α β : Type} (g : α → List β) (B : Nat) (d : α)
    (hg : ∀ x, (g x).length = B) :
    ∀ (l : List α) (q r : Nat), r < B → q < l.length →
      (l.flatMap g)[q * B + r]? = (g (l.getD q d))[r]? := by
  intro l
  induction l with
  | nil => intro q r hr hq; simp at hq
  | cons x xs ih =>
      intro q r hr hq
      match q with
      | 0 =>
          have hlen : r < (g x).length := by rw [hg x]; exact hr
          simp [List.flatMap_cons, List.getElem?_append, hlen]
      | Nat.succ q2 =>
          have hge : (g x).length ≤ Nat.succ q2 * B + r := by
            rw [hg x]
            calc B ≤ Nat.succ q2 * B := Nat.le_mul_of_pos_left B (Nat.succ_pos q2)
              _ ≤ Nat.succ q2 * B + r := Nat.le_add_right _ _
          have harith : Nat.succ q2 * B + r - (g x).length = q2 * B + r := by
            rw [hg x]; rw [Nat.succ_mul]; omega
          rw [List.flatMap_cons, List.getElem?_append_right hge, harith]
          have hq2 : q2 < xs.length := by simp at hq; omega
          simpa using ih q2 r hr hq2

theorem cartesianProduct_get {α : Type} (d : α) (axes : List (List α)) :
    ∀ i, i < (cartesianProduct axes).length →
      (cartesianProduct axes)[i]? = some (mixedRadixSelect d axes i) := by
  induction axes with
  | nil =>
      intro i hi
      simp [cartesianProduct] at hi
      simp [cartesianProduct, hi, mixedRadixSelect]
  | cons axis rest ih =>
      intro i hi
      have hlen : (cartesianProduct (axis :: rest)).length =
          axis.length * (cartesianProduct rest).length := by
        rw [cartesianProduct_length, cartesianProduct_length]
        simp
      set B := (cartesianProduct rest).length with hB
      have hiB : i < axis.length * B := by rw [hlen] at hi; exact hi
      have hBpos : 0 < B := by
        rcases Nat.eq_zero_or_pos B with h0 | h
        · rw [h0] at hiB; omega
        · exact h
      have hq : i / B < axis.length := Nat.div_lt_of_lt_mul (by rw [Nat.mul_comm]; exact hiB)
      have hr : i % B < B := Nat.mod_lt _ hBpos
      have hsplit : i = (i / B) * B + (i % B) := by
        rw [Nat.mul_comm]; exact (Nat.div_add_mod i B).symm
      have hstep := flatMap_block_get (fun v => (cartesianProduct rest).map (fun tail => v :: tail))
        B d (by intro x; simp) axis (i / B) (i % B) hr hq
      have hrest := ih (i % B) (by rw [hB]; exact hr)
      have hblock : (rest.map List.length).prod = B := by
        rw [hB, cartesianProduct_length]
      calc (cartesianProduct (axis :: rest))[i]?
          = (cartesianProduct (axis :: rest))[(i / B) * B + (i % B)]? := by rw [← hsplit]
        _ = ((cartesianProduct rest).map (fun tail => axis.getD (i / B) d :: tail))[i % B]? := hstep
        _ = ((cartesianProduct rest)[i % B]?).map (fun tail => axis.getD (i / B) d :: tail) := by
              simp
        _ = some (axis.getD (i / B) d :: mixedRadixSelect d rest (i % B)) := by rw [hrest]; rfl
        _ = some (mixedRadixSelect d (axis :: rest) i) := by rw [mixedRadixSelect, hblock]

theorem cartesianProduct_empty_factor {α : Type} (axes : List (List α))
    (h : ∃ a ∈ axes, a = []) : cartesianProduct axes = [] := by
  have h0 : (0 : Nat) ∈ axes.map List.length := by
    obtain ⟨a, ha, rfl⟩ := h
    exact List.mem_map.mpr ⟨[], ha, rfl⟩
  have hlen := cartesianProduct_length axes
  rw [List.prod_eq_zero h0] at hlen
  exact List.length_eq_zero.mp hlen

theorem multiCartesianProduct_of_ne_nil {α : Type} (axes : List (List α)) (h : axes ≠ []) :
    multiCartesianProduct axes = cartesianProduct axes := by
  cases axes with
  | nil => exact absurd rfl h
  | cons a rest => rfl

theorem joinSep_underscore (l : List String) (h : l ≠ []) :
    "_" ++ joinSep "_" l = concatAll (l.map (fun s => "_" ++ s)) := by
  induction l with
  | nil => exact absurd rfl h
  | cons x xs ih =>
      cases xs with
      | nil => simp [joinSep, concatAll]
      | cons y t =>
          have ihne := ih (by simp)
          rw [joinSep, List.map_cons, concatAll, ← ihne]
          simp [String.append_assoc]

/-- C1 (evaluation at the failing input): for the empty axis list the embedded
`generate_combinations` yields no items, but its precomputed `len` field is 1,
not 0: `axes.iter().any(Vec::is_empty)` is false for an empty slice, so the
source falls through to `axes.iter().map(Vec::len).product()`, and a product
over an empty iterator is 1.  This contradicts the crate's own doc comment
(generator.rs lines 106-108, "its .len() will be 0") and its own test
`test_len_calculation_and_iteration_empty_axes` (asserts `iter.len() == 0`),
so the claim is right and the code is wrong. -/
theorem generate_combinations_empty_axes_bug :
    (generate_combinations []).items = [] ∧ (generate_combinations []).len = 1 :=
  ⟨rfl, rfl⟩

/-- C3: for every non-empty axis list in which every axis is non-empty, the
generator yields exactly the product of the per-axis lengths, each combination
has one cell per axis, and the precomputed `len` equals that same product;
if any axis in the non-empty list is empty, the generator yields no items and
`len` is 0. -/
theorem generate_combinations_count (axes : List (List MatrixCellValue)) (hne : axes ≠ []) :
    ((∀ a ∈ axes, a ≠ []) →
        (generate_combinations axes).items.length = (axes.map List.length).prod ∧
        (generate_combinations axes).len = (axes.map List.length).prod ∧
        ∀ c ∈ (generate_combinations axes).items, c.cells.length = axes.length) ∧
    ((∃ a ∈ axes, a = []) →
        (generate_combinations axes).items = [] ∧ (generate_combinations axes).len = 0) := by
  constructor
  · intro hall
    have hmp := multiCartesianProduct_of_ne_nil axes hne
    have hany : axes.any List.isEmpty = false := by
      rw [List.any_eq_false]
      intro a ha
      simp [List.isEmpty_iff]
      exact hall a ha
    refine ⟨?_, ?_, ?_⟩
    · simp [generate_combinations, hmp, cartesianProduct_length]
    · simp [generate_combinations, hany]
    · intro c hc
      simp [generate_combinations, hmp] at hc
      obtain ⟨cs, hcs, rfl⟩ := hc
      exact cartesianProduct_mem_length axes cs hcs
  · intro hempty
    have hany : axes.any List.isEmpty = true := by
      rw [List.any_eq_true]
      obtain ⟨a, ha, rfl⟩ := hempty
      exact ⟨[], ha, by simp⟩
    constructor
    · simp [generate_combinations, multiCartesianProduct_of_ne_nil axes hne,
        cartesianProduct_empty_factor axes hempty]
    · simp [generate_combinations, hany]

theorem generate_combinations_count_witness :
    (generate_combinations [[MatrixCellValue.Tag "A"],
        [MatrixCellValue.Int 1, MatrixCellValue.Int 2]]).items.length =
      ([[MatrixCellValue.Tag "A"],
        [MatrixCellValue.Int 1, MatrixCellValue.Int 2]].map List.length).prod ∧
    (generate_combinations [[MatrixCellValue.Tag "A"],
        [MatrixCellValue.Int 1, MatrixCellValue.Int 2]]).len =
      ([[MatrixCellValue.Tag "A"],
        [MatrixCellValue.Int 1, MatrixCellValue.Int 2]].map List.length).prod :=
  ⟨((generate_combinations_count _ (by decide)).1 (by decide)).1,
   ((generate_combinations_count _ (by decide)).1 (by decide)).2.1⟩

/-- C4: the generator enumerates the Cartesian product with the rightmost
(last) axis varying fastest.  Formally, the i-th yielded combination selects
from each axis the corresponding digit of i in the mixed-radix system whose
least-significant digit belongs to the last axis (`mixedRadixSelect`), which
is exactly the "increment the last axis first, carry leftward" order; and
concretely, for axes `[[A,B],[1,2]]` the produced order is
`(A,1),(A,2),(B,1),(B,2)`. -/
theorem generate_combinations_ordering :
    (∀ (axes : List (List MatrixCellValue)) (i : Nat),
        i < (generate_combinations axes).items.length →
        (generate_combinations axes).items[i]? =
          some ⟨mixedRadixSelect (MatrixCellValue.Tag "") axes i⟩) ∧
    (generate_combinations [[MatrixCellValue.Tag "A", MatrixCellValue.Tag "B"],
        [MatrixCellValue.Int 1, MatrixCellValue.Int 2]]).items =
      [⟨[MatrixCellValue.Tag "A", MatrixCellValue.Int 1]⟩,
       ⟨[MatrixCellValue.Tag "A", MatrixCellValue.Int 2]⟩,
       ⟨[MatrixCellValue.Tag "B", MatrixCellValue.Int 1]⟩,
       ⟨[MatrixCellValue.Tag "B", MatrixCellValue.Int 2]⟩] := by
  constructor
  · intro axes i hi
    cases axes with
    | nil => simp [generate_combinations, multiCartesianProduct] at hi
    | cons a rest =>
        have hi2 : i < (cartesianProduct (a :: rest)).length := by
          simpa [generate_combinations, multiCartesianProduct] using hi
        have h := cartesianProduct_get (MatrixCellValue.Tag "") (a :: rest) i hi2
        simp [generate_combinations, multiCartesianProduct, h]
  · decide

theorem generate_combinations_ordering_witness :
    2 < (generate_combinations [[MatrixCellValue.Tag "A", MatrixCellValue.Tag "B"],
        [MatrixCellValue.Int 1, MatrixCellValue.Int 2]]).items.length ∧
    (generate_combinations [[MatrixCellValue.Tag "A", MatrixCellValue.Tag "B"],
        [MatrixCellValue.Int 1, MatrixCellValue.Int 2]]).items[2]? =
      some ⟨mixedRadixSelect (MatrixCellValue.Tag "")
        [[MatrixCellValue.Tag "A", MatrixCellValue.Tag "B"],
         [MatrixCellValue.Int 1, MatrixCellValue.Int 2]] 2⟩ :=
  ⟨by decide, generate_combinations_ordering.1 _ 2 (by decide)⟩

/-- C6: the unnamed identifier suffix is the concatenation, in axis order, of
each cell's fragment prefixed with `_` (Tag raw, String sanitized,
`Int<value>`, `Uint<value>`, `Bool<value>`); the empty combination yields
exactly `_`; and `[Tag("StdTokio"), Int(1024), Bool(true)]` yields
`_StdTokio_Int1024_Booltrue`. -/
theorem id_suffix_unnamed_spec :
    (∀ c : AbstractCombination, c.cells ≠ [] →
        c.id_suffix = concatAll (c.cells.map (fun cell => "_" ++ cellIdFragment cell))) ∧
    AbstractCombination.id_suffix ⟨[]⟩ = "_" ∧
    AbstractCombination.id_suffix ⟨[MatrixCellValue.Tag "StdTokio", MatrixCellValue.Int 1024,
        MatrixCellValue.Bool true]⟩ = "_StdTokio_Int1024_Booltrue" := by
  refine ⟨?_, by decide, by decide⟩
  intro c h
  rw [AbstractCombination.id_suffix,
    joinSep_underscore (c.cells.map cellIdFragment) (by simpa using h)]
  simp [List.map_map, Function.comp_def]

theorem id_suffix_unnamed_spec_witness :
    ([MatrixCellValue.Tag "A"] ≠ ([] : List MatrixCellValue)) ∧
    AbstractCombination.id_suffix ⟨[MatrixCellValue.Tag "A"]⟩ =
      concatAll ([MatrixCellValue.Tag "A"].map (fun cell => "_" ++ cellIdFragment cell)) :=
  ⟨by decide, id_suffix_unnamed_spec.1 ⟨[MatrixCellValue.Tag "A"]⟩ (by decide)⟩

/-- C2 counterexample: the claim asserts the named fragment is "as in the
unnamed form", which would render `Unsigned(512)` as `Uint512` and give
`_Backend-Uring_BlockSize-Uint512`.  The crate's own test
`test_abstract_combination_id_suffix_with_names` (generator.rs lines 254-270)
and the spec's own named-suffix example both expect
`_Backend-Uring_BlockSize-512`: the type prefix is absent. -/
theorem id_suffix_with_names_uint_counterexample :
    (AbstractCombination.id_suffix_with_names ⟨[MatrixCellValue.Tag "Uring",
        MatrixCellValue.Unsigned 512]⟩ ["Backend", "BlockSize"]).1 ≠
      "_Backend-Uring_BlockSize-Uint512" ∧
    (AbstractCombination.id_suffix_with_names ⟨[MatrixCellValue.Tag "Uring",
        MatrixCellValue.Unsigned 512]⟩ ["Backend", "BlockSize"]).1 =
      "_Backend-Uring_BlockSize-512" := by
  exact ⟨by decide, by decide⟩

/-- C2 (amended): with a name list equal in length to the combination, the
named identifier suffix is the concatenation, in position order, of
`_<Name>-<fragment>` per cell, where the named fragment is the Tag's raw text,
the String sanitized, and the plain value text (no `Int`/`Uint`/`Bool` type
prefix) for the numeric and boolean variants; with a mismatched name count the
result is exactly the unnamed suffix and the non-fatal warning is emitted.
The two concrete conjuncts mirror the crate's test
`test_abstract_combination_id_suffix_with_names`. -/
theorem id_suffix_with_names_spec :
    (∀ (c : AbstractCombination) (names : List String),
        names.length = c.cells.length →
        c.id_suffix_with_names names =
          (concatAll (List.zipWith (fun n cell => "_" ++ n ++ "-" ++ namedCellFragment cell)
            names c.cells), false)) ∧
    (∀ (c : AbstractCombination) (names : List String),
        names.length ≠ c.cells.length →
        c.id_suffix_with_names names = (c.id_suffix, true)) ∧
    AbstractCombination.id_suffix_with_names ⟨[MatrixCellValue.Tag "Uring",
        MatrixCellValue.Unsigned 512]⟩ ["Backend", "BlockSize"] =
      ("_Backend-Uring_BlockSize-512", false) ∧
    AbstractCombination.id_suffix_with_names ⟨[MatrixCellValue.Tag "Uring",
        MatrixCellValue.Unsigned 512]⟩ ["Backend"] = ("_Uring_Uint512", true) := by
  refine ⟨?_, ?_, by decide, by decide⟩
  · intro c names h
    simp [AbstractCombination.id_suffix_with_names, h]
  · intro c names h
    simp [AbstractCombination.id_suffix_with_names, h]

theorem id_suffix_with_names_spec_witness :
    (["Backend", "BlockSize"].length =
      ([MatrixCellValue.Tag "Uring", MatrixCellValue.Unsigned 512] : List MatrixCellValue).length) ∧
    AbstractCombination.id_suffix_with_names ⟨[MatrixCellValue.Tag "Uring",
        MatrixCellValue.Unsigned 512]⟩ ["Backend", "BlockSize"] =
      (concatAll (List.zipWith (fun n cell => "_" ++ n ++ "-" ++ namedCellFragment cell)
        ["Backend", "BlockSize"] [MatrixCellValue.Tag "Uring", MatrixCellValue.Unsigned 512]),
       false) :=
  ⟨by decide,
   id_suffix_with_names_spec.1 ⟨[MatrixCellValue.Tag "Uring", MatrixCellValue.Unsigned 512]⟩
     ["Backend", "BlockSize"] (by decide)⟩

theorem get_tag_characterization (c : AbstractCombination) (i : Nat) :
    (∀ s, c.get_tag i = Except.ok s ↔ c.cells[i]? = some (MatrixCellValue.Tag s)) ∧
    (c.cells[i]? = none → c.get_tag i = Except.error ("No cell at index " ++ toString i)) ∧
    (∀ v, c.cells[i]? = some v → (∀ s, v ≠ MatrixCellValue.Tag s) →
      c.get_tag i = Except.error ("Expected Tag at index " ++ toString i ++ ", found " ++
        cellDebug v)) := by
  refine ⟨?_, ?_, ?_⟩
  · intro s
    cases h : c.cells[i]? with
    | none => simp [AbstractCombination.get_tag, h]
    | some v => cases v <;> simp [AbstractCombination.get_tag, h]
  · intro h
    simp [AbstractCombination.get_tag, h]
  · intro v h hne
    cases v <;> first
      | exact (hne _ rfl).elim
      | simp [AbstractCombination.get_tag, h]

theorem get_string_characterization (c : AbstractCombination) (i : Nat) :
    (∀ s, c.get_string i = Except.ok s ↔ c.cells[i]? = some (MatrixCellValue.String s)) ∧
    (c.cells[i]? = none → c.get_string i = Except.error ("No cell at index " ++ toString i)) ∧
    (∀ v, c.cells[i]? = some v → (∀ s, v ≠ MatrixCellValue.String s) →
      c.get_string i = Except.error ("Expected String at index " ++ toString i ++ ", found " ++
        cellDebug v)) := by
  refine ⟨?_, ?_, ?_⟩
  · intro s
    cases h : c.cells[i]? with
    | none => simp [AbstractCombination.get_string, h]
    | some v => cases v <;> simp [AbstractCombination.get_string, h]
  · intro h
    simp [AbstractCombination.get_string, h]
  · intro v h hne
    cases v <;> first
      | exact (hne _ rfl).elim
      | simp [AbstractCombination.get_string, h]

theorem get_i64_characterization (c : AbstractCombination) (i : Nat) :
    (∀ n, c.get_i64 i = Except.ok n ↔ c.cells[i]? = some (MatrixCellValue.Int n)) ∧
    (c.cells[i]? = none → c.get_i64 i = Except.error ("No cell at index " ++ toString i)) ∧
    (∀ v, c.cells[i]? = some v → (∀ n, v ≠ MatrixCellValue.Int n) →
      c.get_i64 i = Except.error ("Expected Int at index " ++ toString i ++ ", found " ++
        cellDebug v)) := by
  refine ⟨?_, ?_, ?_⟩
  · intro n
    cases h : c.cells[i]? with
    | none => simp [AbstractCombination.get_i64, h]
    | some v => cases v <;> simp [AbstractCombination.get_i64, h]
  · intro h
    simp [AbstractCombination.get_i64, h]
  · intro v h hne
    cases v <;> first
      | exact (hne _ rfl).elim
      | simp [AbstractCombination.get_i64, h]

theorem get_u64_characterization (c : AbstractCombination) (i : Nat) :
    (∀ n, c.get_u64 i = Except.ok n ↔ c.cells[i]? = some (MatrixCellValue.Unsigned n)) ∧
    (c.cells[i]? = none → c.get_u64 i = Except.error ("No cell at index " ++ toString i)) ∧
    (∀ v, c.cells[i]? = some v → (∀ n, v ≠ MatrixCellValue.Unsigned n) →
      c.get_u64 i = Except.error ("Expected Unsigned at index " ++ toString i ++ ", found " ++
        cellDebug v)) := by
  refine ⟨?_, ?_, ?_⟩
  · intro n
    cases h : c.cells[i]? with
    | none => simp [AbstractCombination.get_u64, h]
    | some v => cases v <;> simp [AbstractCombination.get_u64, h]
  · intro h
    simp [AbstractCombination.get_u64, h]
  · intro v h hne
    cases v <;> first
      | exact (hne _ rfl).elim
      | simp [AbstractCombination.get_u64, h]

theorem get_bool_characterization (c : AbstractCombination) (i : Nat) :
    (∀ b, c.get_bool i = Except.ok b ↔ c.cells[i]? = some (MatrixCellValue.Bool b)) ∧
    (c.cells[i]? = none → c.get_bool i = Except.error ("No cell at index " ++ toString i)) ∧
    (∀ v, c.cells[i]? = some v → (∀ b, v ≠ MatrixCellValue.Bool b) →
      c.get_bool i = Except.error ("Expected Bool at index " ++ toString i ++ ", found " ++
        cellDebug v)) := by
  refine ⟨?_, ?_, ?_⟩
  · intro b
    cases h : c.cells[i]? with
    | none => simp [AbstractCombination.get_bool, h]
    | some v => cases v <;> simp [AbstractCombination.get_bool, h]
  · intro h
    simp [AbstractCombination.get_bool, h]
  · intro v h hne
    cases v <;> first
      | exact (hne _ rfl).elim
      | simp [AbstractCombination.get_bool, h]

/-- C5: each of the five typed accessors returns `ok` with the cell's payload
exactly when a cell exists at the index and has the accessor's variant;
when a cell exists with a different variant, the error message names the index
and (via `cellDebug`) the actual variant found; when no cell exists, the error
says so and names the index.  The accessors take the combination by shared
reference in the source (`&self`) and are embedded as pure functions, so the
combination is never modified. -/
theorem typed_accessors_spec (c : AbstractCombination) (i : Nat) :
    ((∀ s, c.get_tag i = Except.ok s ↔ c.cells[i]? = some (MatrixCellValue.Tag s)) ∧
     (c.cells[i]? = none → c.get_tag i = Except.error ("No cell at index " ++ toString i)) ∧
     (∀ v, c.cells[i]? = some v → (∀ s, v ≠ MatrixCellValue.Tag s) →
       c.get_tag i = Except.error ("Expected Tag at index " ++ toString i ++ ", found " ++
         cellDebug v))) ∧
    ((∀ s, c.get_string i = Except.ok s ↔ c.cells[i]? = some (MatrixCellValue.String s)) ∧
     (c.cells[i]? = none → c.get_string i = Except.error ("No cell at index " ++ toString i)) ∧
     (∀ v, c.cells[i]? = some v → (∀ s, v ≠ MatrixCellValue.String s) →
       c.get_string i = Except.error ("Expected String at index " ++ toString i ++ ", found " ++
         cellDebug v))) ∧
    ((∀ n, c.get_i64 i = Except.ok n ↔ c.cells[i]? = some (MatrixCellValue.Int n)) ∧
     (c.cells[i]? = none → c.get_i64 i = Except.error ("No cell at index " ++ toString i)) ∧
     (∀ v, c.cells[i]? = some v → (∀ n, v ≠ MatrixCellValue.Int n) →
       c.get_i64 i = Except.error ("Expected Int at index " ++ toString i ++ ", found " ++
         cellDebug v))) ∧
    ((∀ n, c.get_u64 i = Except.ok n ↔ c.cells[i]? = some (MatrixCellValue.Unsigned n)) ∧
     (c.cells[i]? = none → c.get_u64 i = Except.error ("No cell at index " ++ toString i)) ∧
     (∀ v, c.cells[i]? = some v → (∀ n, v ≠ MatrixCellValue.Unsigned n) →
       c.get_u64 i = Except.error ("Expected Unsigned at index " ++ toString i ++ ", found " ++
         cellDebug v))) ∧
    ((∀ b, c.get_bool i = Except.ok b ↔ c.cells[i]? = some (MatrixCellValue.Bool b)) ∧
     (c.cells[i]? = none → c.get_bool i = Except.error ("No cell at index " ++ toString i)) ∧
     (∀ v, c.cells[i]? = some v → (∀ b, v ≠ MatrixCellValue.Bool b) →
       c.get_bool i = Except.error ("Expected Bool at index " ++ toString i ++ ", found " ++
         cellDebug v))) :=
  ⟨get_tag_characterization c i, get_string_characterization c i, get_i64_characterization c i,
   get_u64_characterization c i, get_bool_characterization c i⟩

theorem typed_accessors_spec_witness :
    (AbstractCombination.get_tag ⟨[MatrixCellValue.Tag "Uring", MatrixCellValue.Unsigned 512]⟩ 0 =
        Except.ok "Uring" ↔
      ([MatrixCellValue.Tag "Uring", MatrixCellValue.Unsigned 512] : List MatrixCellValue)[0]? =
        some (MatrixCellValue.Tag "Uring")) ∧
    AbstractCombination.get_tag ⟨[MatrixCellValue.Tag "Uring", MatrixCellValue.Unsigned 512]⟩ 1 =
      Except.error ("Expected Tag at index " ++ toString 1 ++ ", found " ++
        cellDebug (MatrixCellValue.Unsigned 512)) ∧
    AbstractCombination.get_bool ⟨[MatrixCellValue.Tag "Uring", MatrixCellValue.Unsigned 512]⟩ 2 =
      Except.error ("No cell at index " ++ toString 2) :=
  ⟨(typed_accessors_spec ⟨[MatrixCellValue.Tag "Uring", MatrixCellValue.Unsigned 512]⟩ 0).1.1
      "Uring",
   (typed_accessors_spec ⟨[MatrixCellValue.Tag "Uring", MatrixCellValue.Unsigned 512]⟩ 1).1.2.2
      (MatrixCellValue.Unsigned 512) (by decide) (fun s => by simp),
   (typed_accessors_spec ⟨[MatrixCellValue.Tag "Uring", MatrixCellValue.Unsigned 512]⟩ 2).2.2.2.2.2.1
      (by decide)⟩

/-- C10: converting a static string slice produces the `Tag` variant and
converting an owned `String` produces the `String` variant; consequently for a
cell built from a string literal `get_tag` at its index succeeds and
`get_string` fails, and for a cell built from an owned `String` the reverse
holds. -/
theorem from_str_conversions (s : String) :
    cellFromStaticStr s = MatrixCellValue.Tag s ∧
    cellFromString s = MatrixCellValue.String s ∧
    (∀ (c : AbstractCombination) (i : Nat),
        (c.cells[i]? = some (cellFromStaticStr s) →
          c.get_tag i = Except.ok s ∧ ∃ m, c.get_string i = Except.error m) ∧
        (c.cells[i]? = some (cellFromString s) →
          c.get_string i = Except.ok s ∧ ∃ m, c.get_tag i = Except.error m)) := by
  refine ⟨rfl, rfl, ?_⟩
  intro c i
  constructor
  · intro h
    refine ⟨((get_tag_characterization c i).1 s).mpr h, ?_⟩
    exact ⟨_, (get_string_characterization c i).2.2 (MatrixCellValue.Tag s) h (by intro t; simp)⟩
  · intro h
    refine ⟨((get_string_characterization c i).1 s).mpr h, ?_⟩
    exact ⟨_, (get_tag_characterization c i).2.2 (MatrixCellValue.String s) h (by intro t; simp)⟩

theorem from_str_conversions_witness :
    (AbstractCombination.cells ⟨[cellFromStaticStr "StdTokio", cellFromString "StdTokio"]⟩)[0]? =
        some (cellFromStaticStr "StdTokio") ∧
    AbstractCombination.get_tag ⟨[cellFromStaticStr "StdTokio", cellFromString "StdTokio"]⟩ 0 =
        Except.ok "StdTokio" ∧
    ∃ m, AbstractCombination.get_string
        ⟨[cellFromStaticStr "StdTokio", cellFromString "StdTokio"]⟩ 0 = Except.error m :=
  ⟨by decide,
   ((from_str_conversions "StdTokio").2.2
      ⟨[cellFromStaticStr "StdTokio", cellFromString "StdTokio"]⟩ 0).1 (by decide) |>.1,
   ((from_str_conversions "StdTokio").2.2
      ⟨[cellFromStaticStr "StdTokio", cellFromString "StdTokio"]⟩ 0).1 (by decide) |>.2⟩

/-- Observable callback invocations during one harness sample, recording the
arguments each call receives. -/
inductive SampleEvent (Cfg Ctx S : Type) where
  | setupCall (cfg : Cfg)
  | logicCall (ctx : Ctx) (st : S)
  | teardownCall (ctx : Ctx) (st : S)
deriving DecidableEq

/-- The (context, state) pair after one logic call, as reassigned by the loop
body (`user_ctx = ctx_after_iter; setup_data_instance = s_after_iter`). -/
def logicStep {Cfg Ctx S : Type} (logic : Ctx → S → Cfg → Ctx × S × Nat) (cfg : Cfg)
    (p : Ctx × S) : Ctx × S :=
  ((logic p.1 p.2 cfg).1, (logic p.1 p.2 cfg).2.1)

/-- The (context, state) pair after n logic calls starting from p. -/
def iterState {Cfg Ctx S : Type} (logic : Ctx → S → Cfg → Ctx × S × Nat) (cfg : Cfg) :
    Nat → Ctx × S → Ctx × S
  | 0, p => p
  | n + 1, p => iterState logic cfg n (logicStep logic cfg p)

/-- The durations returned by n successive logic calls starting from p. -/
def logicDurations {Cfg Ctx S : Type} (logic : Ctx → S → Cfg → Ctx × S × Nat) (cfg : Cfg) :
    Nat → Ctx × S → List Nat
  | 0, _ => []
  | n + 1, p => (logic p.1 p.2 cfg).2.2 :: logicDurations logic cfg n (logicStep logic cfg p)

/-- The logic-call events of n successive logic calls starting from p, each
recording the context and state that call receives. -/
def logicEvents {Cfg Ctx S : Type} (logic : Ctx → S → Cfg → Ctx × S × Nat) (cfg : Cfg) :
    Nat → Ctx × S → List (SampleEvent Cfg Ctx S)
  | 0, _ => []
  | n + 1, p =>
      SampleEvent.logicCall p.1 p.2 :: logicEvents logic cfg n (logicStep logic cfg p)

/-- Embedding of the `for _i in 0..iters_count_hint` loop inside `iter_custom`
(sync_suite.rs lines 193-201, async_suite.rs lines 216-228): each pass calls
the logic callback on the current (context, state), adds the measured duration
into the running total, and reassigns the pair from the callback's result.
The event list is threaded as an accumulator recording each invocation. -/
def sampleIterLoop {Cfg Ctx S : Type} (logic : Ctx → S → Cfg → Ctx × S × Nat) (cfg : Cfg) :
    Nat → Ctx → S → Nat → List (SampleEvent Cfg Ctx S) →
      Ctx × S × Nat × List (SampleEvent Cfg Ctx S)
  | 0, ctx, st, total, tr => (ctx, st, total, tr)
  | n + 1, ctx, st, total, tr =>
      sampleIterLoop logic cfg n (logic ctx st cfg).1 (logic ctx st cfg).2.1
        (total + (logic ctx st cfg).2.2) (tr ++ [SampleEvent.logicCall ctx st])

/-- Embedding of the body of the `iter_custom` closure (sync_suite.rs lines
181-206; async_suite.rs lines 202-241 is identical up to awaiting): per-sample
setup runs once; on setup failure the source panics inside the harness's
measurement region (`unwrap_or_else(|e| panic!(...))`), embedded as the
`Except.error` escaping the sample; on success the logic loop runs
`iters` times, per-sample teardown runs once, and the summed duration is
returned to the harness. -/
def runSample {Cfg Ctx S E : Type} (setup : Cfg → Except E (Ctx × S))
    (logic : Ctx → S → Cfg → Ctx × S × Nat) (teardown : Ctx → S → Cfg → Unit)
    (cfg : Cfg) (iters : Nat) : Except E Nat × List (SampleEvent Cfg Ctx S) :=
  match setup cfg with
  | Except.error e => (Except.error e, [SampleEvent.setupCall cfg])
  | Except.ok p =>
      let r := sampleIterLoop logic cfg iters p.1 p.2 0 [SampleEvent.setupCall cfg]
      let _u := teardown r.1 r.2.1 cfg
      (Except.ok r.2.2.1, r.2.2.2 ++ [SampleEvent.teardownCall r.1 r.2.1])

theorem logicEvents_length {Cfg Ctx S : Type} (logic : Ctx → S → Cfg → Ctx × S × Nat)
    (cfg : Cfg) : ∀ (n : Nat) (p : Ctx × S), (logicEvents logic cfg n p).length = n := by
  intro n
  induction n with
  | zero => intro p; rfl
  | succ n ih => intro p; simp [logicEvents, ih]

theorem sampleIterLoop_spec {Cfg Ctx S : Type} (logic : Ctx → S → Cfg → Ctx × S × Nat)
    (cfg : Cfg) : ∀ (n : Nat) (ctx : Ctx) (st : S) (total : Nat)
      (tr : List (SampleEvent Cfg Ctx S)),
    sampleIterLoop logic cfg n ctx st total tr =
      ((iterState logic cfg n (ctx, st)).1, (iterState logic cfg n (ctx, st)).2,
       total + (logicDurations logic cfg n (ctx, st)).sum,
       tr ++ logicEvents logic cfg n (ctx, st)) := by
  intro n
  induction n with
  | zero =>
      intro ctx st total tr
      simp [sampleIterLoop, iterState, logicDurations, logicEvents]
  | succ n ih =>
      intro ctx st total tr
      rw [sampleIterLoop, ih]
      simp [iterState, logicDurations, logicEvents, logicStep, Nat.add_assoc]

/-- C7: within a sample, when per-sample setup succeeds with (ctx0, st0), the
observed call sequence is exactly one setup call, then exactly `iters` logic
calls — each receiving the context and state produced by the previous step —
then exactly one teardown call receiving the final pair (also when
`iters = 0`), and the duration handed back to the harness is the sum of the
`iters` durations the logic calls returned. -/
theorem runSample_lifecycle {Cfg Ctx S E : Type} (setup : Cfg → Except E (Ctx × S))
    (logic : Ctx → S → Cfg → Ctx × S × Nat) (teardown : Ctx → S → Cfg → Unit)
    (cfg : Cfg) (iters : Nat) (ctx0 : Ctx) (st0 : S)
    (hsetup : setup cfg = Except.ok (ctx0, st0)) :
    runSample setup logic teardown cfg iters =
      (Except.ok (logicDurations logic cfg iters (ctx0, st0)).sum,
       SampleEvent.setupCall cfg ::
         (logicEvents logic cfg iters (ctx0, st0) ++
          [SampleEvent.teardownCall (iterState logic cfg iters (ctx0, st0)).1
             (iterState logic cfg iters (ctx0, st0)).2])) ∧
    (logicEvents logic cfg iters (ctx0, st0)).length = iters := by
  refine ⟨?_, logicEvents_length logic cfg iters (ctx0, st0)⟩
  simp [runSample, hsetup, sampleIterLoop_spec]

theorem runSample_lifecycle_witness :
    ((fun _ : Unit => (Except.ok ((0 : Nat), (0 : Nat)) : Except String (Nat × Nat))) () =
        Except.ok ((0 : Nat), (0 : Nat))) ∧
    runSample (fun _ : Unit => (Except.ok ((0 : Nat), (0 : Nat)) : Except String (Nat × Nat)))
        (fun ctx st _ => (ctx + 1, st + 2, 5)) (fun _ _ _ => ()) () 2 =
      (Except.ok 10,
       [SampleEvent.setupCall (), SampleEvent.logicCall 0 0, SampleEvent.logicCall 1 2,
        SampleEvent.teardownCall 2 4]) := by
  refine ⟨rfl, ?_⟩
  have h := runSample_lifecycle
    (fun _ : Unit => (Except.ok ((0 : Nat), (0 : Nat)) : Except String (Nat × Nat)))
    (fun ctx st _ => (ctx + 1, st + 2, 5)) (fun _ _ _ => ()) () 2 0 0 rfl
  rw [h.1]
  rfl

/-- C9: if per-sample setup fails, the failure escalates out of the sample as
a hard abort (the source panics inside the harness's measurement region; the
embedding returns the escaping `Except.error`): no logic call and no teardown
call is observed, and the error is not caught, counted, or converted into a
skip — the only event is the setup call itself. -/
theorem runSample_setup_error_aborts {Cfg Ctx S E : Type} (setup : Cfg → Except E (Ctx × S))
    (logic : Ctx → S → Cfg → Ctx × S × Nat) (teardown : Ctx → S → Cfg → Unit)
    (cfg : Cfg) (iters : Nat) (e : E) (hsetup : setup cfg = Except.error e) :
    runSample setup logic teardown cfg iters = (Except.error e, [SampleEvent.setupCall cfg]) := by
  simp [runSample, hsetup]

theorem runSample_setup_error_aborts_witness :
    ((fun _ : Unit => (Except.error "boom" : Except String (Nat × Nat))) () =
        Except.error "boom") ∧
    runSample (fun _ : Unit => (Except.error "boom" : Except String (Nat × Nat)))
        (fun ctx st _ => (ctx, st, 1)) (fun _ _ _ => ()) () 3 =
      (Except.error "boom", [SampleEvent.setupCall ()]) :=
  ⟨rfl, runSample_setup_error_aborts
    (fun _ : Unit => (Except.error "boom" : Except String (Nat × Nat)))
    (fun ctx st _ => (ctx, st, 1)) (fun _ _ _ => ()) () 3 "boom" rfl⟩

/-- The per-run counters tracked by `run` (sync_suite.rs lines 120-122,
async_suite.rs lines 139-141): successfully registered variants, variants
skipped at extraction, variants skipped at global setup. -/
structure RunCounters where
  run : Nat
  skippedExtraction : Nat
  skippedGlobalSetup : Nat
deriving DecidableEq

def RunCounters.add (a b : RunCounters) : RunCounters :=
  ⟨a.run + b.run, a.skippedExtraction + b.skippedExtraction,
   a.skippedGlobalSetup + b.skippedGlobalSetup⟩

/-- Observable per-combination events of the orchestrator loop: the logged
extraction failure, the logged global-setup failure, the registration of the
combination's benchmark case with the harness (the `bench_with_input` call,
whose internals are the per-sample model above), each global-teardown
invocation, and the logged warning when a global teardown fails. -/
inductive RunEvent (Combo Cfg E : Type) where
  | extractorFailed (combo : Combo) (e : E)
  | globalSetupFailed (cfg : Cfg) (msg : String)
  | benchCaseRegistered (cfg : Cfg)
  | globalTeardownCall (cfg : Cfg)
  | globalTeardownWarn (cfg : Cfg) (msg : String)
deriving DecidableEq

/-- The caller-supplied hooks the loop consults: the extractor and the two
optional global hooks (suite fields `extractor_fn`, `global_setup_fn`,
`global_teardown_fn`).  The source types them `FnMut`; the claims under
verification do not depend on closure-captured mutable state, so they are
embedded as pure functions. -/
structure SuiteHooks (Combo Cfg E : Type) where
  extractor : Combo → Except E Cfg
  globalSetup : Option (Cfg → Except String Unit)
  globalTeardown : Option (Cfg → Except String Unit)

/-- Embedding of the `if let Some(global_teardown) { if let Err(e) = ... }`
blocks (sync_suite.rs lines 154-161 and 217-227, async_suite.rs likewise):
when a global teardown is registered it is invoked, and a failure only
produces a logged warning event — never an abort. -/
def runGlobalTeardown {Combo Cfg E : Type} (hooks : SuiteHooks Combo Cfg E) (cfg : Cfg) :
    List (RunEvent Combo Cfg E) :=
  match hooks.globalTeardown with
  | none => []
  | some td =>
      match td cfg with
      | Except.ok _ => [RunEvent.globalTeardownCall cfg]
      | Except.error m => [RunEvent.globalTeardownCall cfg, RunEvent.globalTeardownWarn cfg m]

/-- Embedding of one pass of the `for abstract_combo in abstract_combinations`
loop body (sync_suite.rs lines 134-228, async_suite.rs lines 153-263):
extraction failure logs and counts a skip and ends the pass (`continue`);
global-setup failure logs and counts a skip, immediately invokes the
registered global teardown as compensation, and ends the pass; otherwise the
benchmark case is registered and the global teardown (if any) runs after it. -/
def processCombo {Combo Cfg E : Type} (hooks : SuiteHooks Combo Cfg E) (combo : Combo) :
    RunCounters × List (RunEvent Combo Cfg E) :=
  match hooks.extractor combo with
  | Except.error e => (⟨0, 1, 0⟩, [RunEvent.extractorFailed combo e])
  | Except.ok cfg =>
      match hooks.globalSetup with
      | some gs =>
          match gs cfg with
          | Except.error m =>
              (⟨0, 0, 1⟩, RunEvent.globalSetupFailed cfg m :: runGlobalTeardown hooks cfg)
          | Except.ok _ =>
              (⟨1, 0, 0⟩, RunEvent.benchCaseRegistered cfg :: runGlobalTeardown hooks cfg)
      | none => (⟨1, 0, 0⟩, RunEvent.benchCaseRegistered cfg :: runGlobalTeardown hooks cfg)

/-- The orchestrator loop over the generated combinations, threading the
mutable counters and the event log exactly as the source's `for` loop does. -/
def runCombos {Combo Cfg E : Type} (hooks : SuiteHooks Combo Cfg E) :
    List Combo → RunCounters → List (RunEvent Combo Cfg E) →
      RunCounters × List (RunEvent Combo Cfg E)
  | [], counters, events => (counters, events)
  | combo :: rest, counters, events =>
      runCombos hooks rest (counters.add (processCombo hooks combo).1)
        (events ++ (processCombo hooks combo).2)

/-- The whole loop starting from zero counters and an empty log. -/
def runSuite {Combo Cfg E : Type} (hooks : SuiteHooks Combo Cfg E) (combos : List Combo) :
    RunCounters × List (RunEvent Combo Cfg E) :=
  runCombos hooks combos ⟨0, 0, 0⟩ []

theorem RunCounters.add_assoc (a b c : RunCounters) :
    (a.add b).add c = a.add (b.add c) := by
  simp [RunCounters.add, Nat.add_assoc]

theorem RunCounters.zero_add (a : RunCounters) : RunCounters.add ⟨0, 0, 0⟩ a = a := by
  simp [RunCounters.add]

theorem runCombos_shift {Combo Cfg E : Type} (hooks : SuiteHooks Combo Cfg E) :
    ∀ (l : List Combo) (counters : RunCounters) (events : List (RunEvent Combo Cfg E)),
      runCombos hooks l counters events =
        (counters.add (runSuite hooks l).1, events ++ (runSuite hooks l).2) := by
  intro l
  induction l with
  | nil =>
      intro counters events
      simp [runCombos, runSuite, RunCounters.add]
  | cons combo rest ih =>
      intro counters events
      have h1 : runCombos hooks (combo :: rest) counters events =
          runCombos hooks rest (counters.add (processCombo hooks combo).1)
            (events ++ (processCombo hooks combo).2) := rfl
      have h2 : runSuite hooks (combo :: rest) =
          runCombos hooks rest (RunCounters.add ⟨0, 0, 0⟩ (processCombo hooks combo).1)
            ([] ++ (processCombo hooks combo).2) := rfl
      rw [h1, ih, h2, ih]
      simp [RunCounters.zero_add, RunCounters.add_assoc, List.append_assoc]

/-- C8: fault isolation in the orchestrator loop.
(1) The run over any concatenation of combinations is the independent
concatenation of the runs over the pieces, so a failure while processing one
combination never prevents the following combinations from being processed.
(2) An extraction failure for a combination contributes exactly one
extraction skip, no benchmark case, and no teardown — only that combination
is affected.
(3) A global-setup failure contributes exactly one global-setup skip, no
benchmark case, and is followed immediately by the compensating invocation of
the registered global teardown.
(4) Whenever a global teardown is registered, its invocation is the first
event of the teardown block.
(5) A failing global teardown yields only the invocation plus a logged
warning — the loop still returns normally (by (1) and (3), later combinations
are still processed). -/
theorem orchestrator_fault_isolation {Combo Cfg E : Type} :
    (∀ (hooks : SuiteHooks Combo Cfg E) (l1 l2 : List Combo),
        runSuite hooks (l1 ++ l2) =
          ((runSuite hooks l1).1.add (runSuite hooks l2).1,
           (runSuite hooks l1).2 ++ (runSuite hooks l2).2)) ∧
    (∀ (hooks : SuiteHooks Combo Cfg E) (combo : Combo) (e : E),
        hooks.extractor combo = Except.error e →
        processCombo hooks combo = (⟨0, 1, 0⟩, [RunEvent.extractorFailed combo e])) ∧
    (∀ (hooks : SuiteHooks Combo Cfg E) (combo : Combo) (cfg : Cfg)
        (gs : Cfg → Except String Unit) (m : String),
        hooks.extractor combo = Except.ok cfg → hooks.globalSetup = some gs →
        gs cfg = Except.error m →
        processCombo hooks combo =
          (⟨0, 0, 1⟩, RunEvent.globalSetupFailed cfg m :: runGlobalTeardown hooks cfg)) ∧
    (∀ (hooks : SuiteHooks Combo Cfg E) (cfg : Cfg) (td : Cfg → Except String Unit),
        hooks.globalTeardown = some td →
        (runGlobalTeardown hooks cfg).head? = some (RunEvent.globalTeardownCall cfg)) ∧
    (∀ (hooks : SuiteHooks Combo Cfg E) (cfg : Cfg) (td : Cfg → Except String Unit)
        (m : String),
        hooks.globalTeardown = some td → td cfg = Except.error m →
        runGlobalTeardown hooks cfg =
          [RunEvent.globalTeardownCall cfg, RunEvent.globalTeardownWarn cfg m]) := by
  refine ⟨?_, ?_, ?_, ?_, ?_⟩
  · intro hooks l1 l2
    induction l1 with
    | nil => simp [runSuite, runCombos, RunCounters.zero_add]
    | cons combo rest ih =>
        have h1 : runSuite hooks ((combo :: rest) ++ l2) =
            runCombos hooks (rest ++ l2)
              (RunCounters.add ⟨0, 0, 0⟩ (processCombo hooks combo).1)
              ([] ++ (processCombo hooks combo).2) := rfl
        have h2 : runSuite hooks (combo :: rest) =
            runCombos hooks rest
              (RunCounters.add ⟨0, 0, 0⟩ (processCombo hooks combo).1)
              ([] ++ (processCombo hooks combo).2) := rfl
        rw [h1, h2, runCombos_shift, runCombos_shift, ih]
        simp [RunCounters.add_assoc, List.append_assoc]
  · intro hooks combo e h
    simp [processCombo, h]
  · intro hooks combo cfg gs m hex hgs hfail
    simp [processCombo, hex, hgs, hfail]
  · intro hooks cfg td htd
    cases h : td cfg with
    | ok u => simp [runGlobalTeardown, htd, h]
    | error m => simp [runGlobalTeardown, htd, h]
  · intro hooks cfg td m htd hfail
    simp [runGlobalTeardown, htd, hfail]

theorem orchestrator_fault_isolation_witness :
    (SuiteHooks.extractor
        (⟨fun n => if n = 1 then Except.error "bad combo" else Except.ok n, none,
          some (fun _ => Except.error "teardown boom")⟩ : SuiteHooks Nat Nat String) 1 =
      Except.error "bad combo") ∧
    processCombo
        (⟨fun n => if n = 1 then Except.error "bad combo" else Except.ok n, none,
          some (fun _ => Except.error "teardown boom")⟩ : SuiteHooks Nat Nat String) 1 =
      (⟨0, 1, 0⟩, [RunEvent.extractorFailed 1 "bad combo"]) ∧
    runGlobalTeardown
        (⟨fun n => if n = 1 then Except.error "bad combo" else Except.ok n, none,
          some (fun _ => Except.error "teardown boom")⟩ : SuiteHooks Nat Nat String) 7 =
      [RunEvent.globalTeardownCall 7, RunEvent.globalTeardownWarn 7 "teardown boom"] :=
  ⟨rfl,
   orchestrator_fault_isolation.2.1
     (⟨fun n => if n = 1 then Except.error "bad combo" else Except.ok n, none,
       some (fun _ => Except.error "teardown boom")⟩ : SuiteHooks Nat Nat String) 1 "bad combo"
     rfl,
   orchestrator_fault_isolation.2.2.2.2
     (⟨fun n => if n = 1 then Except.error "bad combo" else Except.ok n, none,
       some (fun _ => Except.error "teardown boom")⟩ : SuiteHooks Nat Nat String) 7
     (fun _ => Except.error "teardown boom") "teardown boom" rfl rfl⟩

end BenchMatrix
